import Mathlib

/-!
Shallow embedding of the MCP server-manager (the Node.js control-plane in
`src/frontend/src/App.js`, second document: the `server-manager` process) and
of the credential write path (`models/Server.js` pre-save hook and the
`PUT /api/servers/:id/apikey` route in `routes/servers.js`).

Machine state is made explicit: the persisted Mongo collection becomes a list
of records, the `runningServers` Map becomes an association list from server
id to a numeric process handle, and each handler returns the new state
together with an ordered trace of the externally visible actions it performed
(kill signals, registry mutations, persisted-status writes, responses sent).
-/

namespace MCP

/-- Per-server `config` object, as read by the launcher (`server.config`):
`command`, `args`, `env` for `custom` servers, `allowedDirectories` for
`filesystem` servers.  Absent JS fields are `Option.none` / defaults. -/
structure Config where
  command : Option String
  args : List String
  env : List (String × String)
  allowedDirectories : Option (List String)
deriving DecidableEq, Repr

/-- The `Server` mongoose document as the manager sees it (`serverSchema` in
App.js): `_id` is `id`, `type` is `sType` (a free string in the manager's
schema), `apiKeys` is an association list from credential name to stored
(string) value. -/
structure ServerRecord where
  id : String
  name : String
  owner : String
  sType : String
  status : String
  endpoint : String
  apiKeys : List (String × String)
  config : Config
  requestCount : Nat
  lastActivity : Nat
deriving DecidableEq, Repr

/-- The persisted store: the `Server` collection, keyed by `_id`. -/
abbrev Store := List ServerRecord

/-- `Server.findById(id)`: first record whose `_id` equals `id`. -/
def findById (store : Store) (id : String) : Option ServerRecord :=
  store.find? (fun r => r.id = id)

/-- `server.save()` on a record fetched from the store: replaces the stored
document with the mutated one, by `_id`. -/
def saveRecord (store : Store) (r : ServerRecord) : Store :=
  store.map (fun q => if q.id = r.id then r else q)

/-- The `runningServers` Map: server id string to the live process handle
(handles are numbered by spawn order). -/
abbrev Registry := List (String × Nat)

/-- `runningServers.get(id)`. -/
def regGet (reg : Registry) (id : String) : Option Nat :=
  (reg.find? (fun p => p.1 = id)).map (fun p => p.2)

/-- `runningServers.has(id)`. -/
def regHas (reg : Registry) (id : String) : Bool :=
  (reg.find? (fun p => p.1 = id)).isSome

/-- `runningServers.set(id, proc)`. -/
def regSet (reg : Registry) (id : String) (h : Nat) : Registry :=
  if regHas reg id then reg.map (fun p => if p.1 = id then (id, h) else p)
  else reg ++ [(id, h)]

/-- `runningServers.delete(id)`. -/
def regDelete (reg : Registry) (id : String) : Registry :=
  reg.filter (fun p => !(p.1 = id : Bool))

/-- A JSON object sent back on the WebSocket command channel
(`ws.send(JSON.stringify({...}))`). -/
structure Response where
  success : Bool
  message : Option String := none
  error : Option String := none
  status : Option String := none
  serverInfo : Option (String × String × String × Nat × Nat) := none
deriving DecidableEq, Repr

/-- Externally visible steps a handler performs, in program order. -/
inductive Action where
  /-- `serverProcess.kill()` on handle `h`. -/
  | kill (h : Nat)
  /-- `runningServers.delete(id)`. -/
  | removeEntry (id : String)
  /-- `runningServers.set(id, proc)` with handle `h`. -/
  | insertEntry (id : String) (h : Nat)
  /-- `server.status = s; await server.save()`. -/
  | persist (id : String) (s : String)
  /-- `spawn(...)` succeeded and created handle `h` for server `id`. -/
  | spawned (id : String) (h : Nat)
  /-- `ws.send(...)` of response `r`. -/
  | send (r : Response)
  /-- `ws.close()` — available in the WebSocket API, never called by any
  handler in the source. -/
  | closeConn
deriving DecidableEq, Repr

/-- Manager-wide mutable state: the persisted store, the `runningServers`
registry, and the next fresh process handle. -/
structure St where
  store : Store
  running : Registry
  nextHandle : Nat
deriving DecidableEq, Repr

/-- Node's built-in `crypto` module (required at the top of the manager) has
no `AES` member, so evaluating `crypto.AES.decrypt(...)` throws a
`TypeError`; the decryption call can never produce a value. -/
def nodeCryptoAesDecrypt (_ciphertext _key : String) : Option String :=
  none

/-- `process.env.ENCRYPTION_KEY`, the process-wide symmetric key. -/
def envEncryptionKey : String := "ENCRYPTION_KEY_VALUE"

/-- `getDecryptedApiKey(server, key)` in the manager: missing map or missing
entry yields `''`; otherwise `crypto.AES.decrypt(value, key)` is attempted
and any thrown error is caught, yielding `''`. -/
def getDecryptedApiKey (server : ServerRecord) (key : String) : String :=
  match (server.apiKeys.find? (fun p => p.1 = key)).map (fun p => p.2) with
  | none => ""
  | some cipher =>
    match nodeCryptoAesDecrypt cipher envEncryptionKey with
    | none => ""
    | some v => v

/-- `process.env` as inherited by spawned children. -/
def baseEnv : List (String × String) := []

/-- What `spawn` was invoked with. -/
structure SpawnSpec where
  cmd : String
  args : List String
  env : List (String × String)
deriving DecidableEq, Repr

/-- `startBraveSearchServer` / `startGithubServer`: fixed npx helper with the
single credential in the environment. -/
def helperSpawnSpec (server : ServerRecord) (pkg : String) (envVar : String) : SpawnSpec :=
  { cmd := "npx"
    args := ["-y", pkg]
    env := baseEnv ++ [(envVar, getDecryptedApiKey server envVar)] }

/-- `startFilesystemServer`: allowed directories from config, default
`['/tmp']`. -/
def filesystemSpawnSpec (server : ServerRecord) : SpawnSpec :=
  { cmd := "npx"
    args := ["-y", "@modelcontextprotocol/server-filesystem"] ++
      (server.config.allowedDirectories.getD ["/tmp"])
    env := baseEnv }

/-- `startCustomServer`: command/args/env from config, environment extended
with every decrypted credential.  A missing `command` makes `spawn` throw
synchronously (`TypeError`: invalid file argument). -/
def customSpawnSpec (server : ServerRecord) : Except String SpawnSpec :=
  match server.config.command with
  | none => .error "spawn: the file argument must be of type string"
  | some cmd =>
    .ok { cmd := cmd
          args := server.config.args
          env := baseEnv ++ server.config.env ++
            server.apiKeys.map (fun p => (p.1, getDecryptedApiKey server p.1)) }

/-- The `switch (server.type)` dispatch of `startServer`: builds the spawn
invocation for a supported type, `.error` when `spawn` throws. -/
def launchSpec (server : ServerRecord) : Option (Except String SpawnSpec) :=
  match server.sType with
  | "brave-search" =>
    some (.ok (helperSpawnSpec server "@modelcontextprotocol/server-brave-search" "BRAVE_API_KEY"))
  | "github" =>
    some (.ok (helperSpawnSpec server "@modelcontextprotocol/server-github" "GITHUB_PERSONAL_ACCESS_TOKEN"))
  | "filesystem" => some (.ok (filesystemSpawnSpec server))
  | "custom" => some (customSpawnSpec server)
  | _ => none

/-- `startServer(serverId, ws)` translated statement by statement: look up
the record; success no-op when already in `runningServers`; dispatch on type
(unknown type answers `Unsupported server type`); a throwing `spawn` is
caught and answered with `Failed to start server` and nothing else happens;
otherwise insert into the registry, persist `running`, answer success. -/
def startServer (st : St) (serverId : String) : St × List Action :=
  match findById st.store serverId with
  | none => (st, [.send { success := false, message := some "Server not found" }])
  | some server =>
    if regHas st.running serverId then
      (st, [.send { success := true, message := some "Server is already running" }])
    else
      match launchSpec server with
      | none => (st, [.send { success := false, message := some "Unsupported server type" }])
      | some (.error e) =>
        (st, [.send { success := false, message := some "Failed to start server", error := some e }])
      | some (.ok _spec) =>
        let h := st.nextHandle
        let st1 : St := { st with running := regSet st.running serverId h,
                                  nextHandle := st.nextHandle + 1 }
        let server1 := { server with status := "running" }
        let st2 : St := { st1 with store := saveRecord st1.store server1 }
        (st2, [.spawned serverId h, .insertEntry serverId h,
               .persist serverId "running",
               .send { success := true, message := some "Server started successfully" }])

/-- `stopServer(serverId, ws)` translated statement by statement: look up the
record; success no-op when not in `runningServers`; otherwise get the
process, `kill()` it, delete the registry entry, persist `stopped`, answer
success — in that program order. -/
def stopServer (st : St) (serverId : String) : St × List Action :=
  match findById st.store serverId with
  | none => (st, [.send { success := false, message := some "Server not found" }])
  | some server =>
    match regGet st.running serverId with
    | none => (st, [.send { success := true, message := some "Server is not running" }])
    | some h =>
      let st1 : St := { st with running := regDelete st.running serverId }
      let server1 := { server with status := "stopped" }
      let st2 : St := { st1 with store := saveRecord st1.store server1 }
      (st2, [.kill h, .removeEntry serverId, .persist serverId "stopped",
             .send { success := true, message := some "Server stopped successfully" }])

/-- `getServerStatus(serverId, ws)`: look up the record, merge liveness from
`runningServers.has` with the persisted fields, send the merged view.  No
state is written. -/
def getServerStatus (st : St) (serverId : String) : St × List Action :=
  match findById st.store serverId with
  | none => (st, [.send { success := false, message := some "Server not found" }])
  | some server =>
    let isRunning := regHas st.running serverId
    (st, [.send { success := true
                  status := some (if isRunning then "running" else "stopped")
                  serverInfo := some (server.id, server.name, server.sType,
                                      server.requestCount, server.lastActivity) }])

/-- The `process.on('exit', ...)` handler installed by
`setupProcessHandlers`: re-fetch the record, persist `stopped` on exit code
zero and `failed` otherwise, then delete the registry entry.  When the record
is gone from the store, `server.status = ...` throws on `null` and the catch
block swallows it, so the registry entry is not deleted either. -/
def procOnExit (st : St) (serverId : String) (code : Int) : St × List Action :=
  match findById st.store serverId with
  | none => (st, [])
  | some server =>
    let newStatus := if code = 0 then "stopped" else "failed"
    let server1 := { server with status := newStatus }
    let st1 : St := { st with store := saveRecord st.store server1 }
    ({ st1 with running := regDelete st1.running serverId },
     [.persist serverId newStatus, .removeEntry serverId])

/-- The `process.on('error', ...)` handler installed by
`setupProcessHandlers`: persist `failed`, then delete the registry entry;
same swallowed-throw behaviour as the exit handler when the record is
gone. -/
def procOnError (st : St) (serverId : String) : St × List Action :=
  match findById st.store serverId with
  | none => (st, [])
  | some server =>
    let server1 := { server with status := "failed" }
    let st1 : St := { st with store := saveRecord st.store server1 }
    ({ st1 with running := regDelete st1.running serverId },
     [.persist serverId "failed", .removeEntry serverId])

/-! ## Command Channel Server (`wss.on('connection')`) -/

/-- Outcome of `JSON.parse` on one inbound WebSocket frame: either a decoded
object carrying `command` and `serverId`, or a parse failure with the thrown
error's message. -/
inductive WsEvent where
  | malformed (detail : String)
  | jsonMsg (command : String) (serverId : String)
deriving DecidableEq, Repr

/-- The per-message handler body: `JSON.parse` failures are caught and
answered with `Error processing command`; decoded messages dispatch on
`data.command`, unknown commands answer `Unknown command`.  Nothing in the
handler ever calls `ws.close()`, so no trace contains `Action.closeConn`. -/
def handleMessage (st : St) (m : WsEvent) : St × List Action :=
  match m with
  | .malformed e =>
    (st, [.send { success := false, message := some "Error processing command",
                  error := some e }])
  | .jsonMsg cmd sid =>
    match cmd with
    | "start" => startServer st sid
    | "stop" => stopServer st sid
    | "status" => getServerStatus st sid
    | _ => (st, [.send { success := false, message := some "Unknown command" }])

/-- One WebSocket session: every message received while the peer keeps the
connection open is handled in order; the handler itself never terminates the
session. -/
def runSession (st : St) : List WsEvent → St × List (List Action)
  | [] => (st, [])
  | m :: ms =>
    let (st1, tr) := handleMessage st m
    let (st2, trs) := runSession st1 ms
    (st2, tr :: trs)

/-! ## Request Router (`POST /mcp/:userId/:serverId`) -/

/-- `leadsWith pat l`: `pat` is an initial run of `l`. -/
def leadsWith : List Char → List Char → Bool
  | [], _ => true
  | _ :: _, [] => false
  | a :: as, b :: bs => a = b && leadsWith as bs

/-- `occursIn pat l`: `pat` occurs contiguously somewhere in `l`. -/
def occursIn (pat : List Char) : List Char → Bool
  | [] => leadsWith pat []
  | a :: t => leadsWith pat (a :: t) || occursIn pat t

/-- `$regex: serverId` applied to a stored `endpoint` (the route's Mongo
query): the literal `serverId` fragment occurs as a substring. -/
def strContains (hay pat : String) : Bool :=
  occursIn pat.toList hay.toList

/-- `Server.findOne({owner: userId, endpoint: {$regex: serverId}})`. -/
def resolveByEndpoint (store : Store) (userId serverId : String) : Option ServerRecord :=
  store.find? (fun r => r.owner = userId && strContains r.endpoint serverId)

/-- An HTTP response from the router: status code and body message. -/
structure McpResp where
  code : Nat
  body : String
deriving DecidableEq, Repr

/-- The `POST /mcp/:userId/:serverId` handler: resolve the record by owner
and endpoint fragment (404 if none); require persisted status `running` (503
otherwise); require a live `runningServers` entry for `server._id` (503
otherwise); then bump `requestCount`, set `lastActivity` to the current
time, save, and answer 200. -/
def mcpPost (st : St) (userId serverId : String) (now : Nat) : St × McpResp :=
  match resolveByEndpoint st.store userId serverId with
  | none => (st, ⟨404, "Server not found"⟩)
  | some server =>
    if server.status = "running" then
      match regGet st.running server.id with
      | none => (st, ⟨503, "Server process not found"⟩)
      | some _ =>
        let server1 := { server with requestCount := server.requestCount + 1,
                                     lastActivity := now }
        ({ st with store := saveRecord st.store server1 },
         ⟨200, "Request processed successfully"⟩)
    else (st, ⟨503, "Server is not running"⟩)

/-! ## Credential write path (backend `models/Server.js` and
`routes/servers.js`), which uses the `crypto-js` library -/

/-- Models `crypto-js`'s `crypto.AES.encrypt(value, key).toString()` as a
symbolic cipher: the ciphertext records the key material and the plaintext
behind an opaque tag (real crypto-js output is base64 beginning
`U2FsdGVkX1`).  What the claims need of it — applying it is observable and
applying it twice differs from applying it once — holds of the real
cipher. -/
def cryptoJsAesEncrypt (key v : String) : String :=
  "U2FsdGVkX1/" ++ key ++ "/" ++ v

/-- `peelTag tag l`: drop the initial run `tag` from `l`, `none` when `l`
does not start with it. -/
def peelTag : List Char → List Char → Option (List Char)
  | [], l => some l
  | _ :: _, [] => none
  | a :: as, b :: bs => if a = b then peelTag as bs else none

/-- Models `crypto-js`'s
`crypto.AES.decrypt(cipher, key).toString(crypto.enc.Utf8)` on the symbolic
cipher: recover the plaintext when the key matches, fail (the thrown
malformed-data error) otherwise. -/
def cryptoJsAesDecrypt (key c : String) : Option String :=
  match peelTag ("U2FsdGVkX1/" ++ key ++ "/").toList c.toList with
  | some rest => some (String.mk rest)
  | none => none

/-- The `ServerSchema.pre('save')` hook: when `apiKeys` was modified on this
document and is non-empty, every entry's value is encrypted (there is no
plaintext/ciphertext distinction — already-stored values are run through the
cipher again). -/
def preSaveEncrypt (apiKeysModified : Bool) (r : ServerRecord) : ServerRecord :=
  if apiKeysModified && decide (0 < r.apiKeys.length) then
    { r with apiKeys := r.apiKeys.map (fun p => (p.1, cryptoJsAesEncrypt envEncryptionKey p.2)) }
  else r

/-- `server.save()` through the backend model: the pre-save hook runs, then
the document is written back. -/
def modelSave (store : Store) (r : ServerRecord) (apiKeysModified : Bool) : Store :=
  saveRecord store (preSaveEncrypt apiKeysModified r)

/-- The spread `{...server.apiKeys, [key]: value}`: replace the entry when
the name is present, append it otherwise. -/
def setKey (l : List (String × String)) (k v : String) : List (String × String) :=
  if (l.find? (fun p => p.1 = k)).isSome then
    l.map (fun p => if p.1 = k then (k, v) else p)
  else l ++ [(k, v)]

/-- An HTTP response from the CRUD boundary. -/
structure ApiResp where
  code : Nat
  success : Bool
  message : String
deriving DecidableEq, Repr

/-- `PUT /api/servers/:id/apikey`: find the record (404 if absent), check
ownership (403 unless owner or admin), merge the new key into `apiKeys` via
object spread, and save — which triggers the pre-save encryption hook on the
whole (modified) `apiKeys` object. -/
def putApiKey (store : Store) (userId : String) (isAdmin : Bool)
    (id key value : String) : Store × ApiResp :=
  match findById store id with
  | none => (store, ⟨404, false, "Server not found"⟩)
  | some server =>
    if server.owner ≠ userId && !isAdmin then
      (store, ⟨403, false, "Not authorized to modify this server"⟩)
    else
      let server1 := { server with apiKeys := setKey server.apiKeys key value }
      (modelSave store server1 true, ⟨200, true, "API key saved successfully"⟩)

/-! ## Trace-order helpers -/

/-- Index of the first action satisfying `p`. -/
def firstIdx (p : Action → Bool) : List Action → Option Nat
  | [] => none
  | a :: t => if p a then some 0 else (firstIdx p t).map (· + 1)

/-- Is this a `kill` signal? -/
def isKillAct : Action → Bool
  | .kill _ => true
  | _ => false

/-- Is this a registry removal? -/
def isRemoveAct : Action → Bool
  | .removeEntry _ => true
  | _ => false

/-- The ordering property claimed of `stop`: in the trace, the registry
removal happens strictly before any termination signal; a termination signal
with no preceding removal violates it; a trace with no termination signal
satisfies it vacuously. -/
def removeBeforeKill (tr : List Action) : Bool :=
  match firstIdx isRemoveAct tr, firstIdx isKillAct tr with
  | some i, some j => decide (i < j)
  | none, some _ => false
  | _, none => true

/-- Is this action a response send (and nothing else)? -/
def isSendAct : Action → Bool
  | .send _ => true
  | _ => false

/-! ## Helper lemmas about the store and the registry -/

theorem regGet_regDelete (reg : Registry) (sid : String) :
    regGet (regDelete reg sid) sid = none := by
  induction reg with
  | nil => rfl
  | cons p t ih =>
    by_cases hp : p.1 = sid
    · simp [regDelete, hp] at ih ⊢; exact ih
    · simp only [regDelete, regGet, List.filter, hp, decide_eq_true_eq] at ih ⊢
      simp [List.find?, hp] at ih ⊢

theorem findById_saveRecord (store : Store) (r : ServerRecord) (sid : String)
    (hid : r.id = sid) (hfind : (findById store sid).isSome) :
    findById (saveRecord store r) sid = some r := by
  induction store with
  | nil => simp [findById] at hfind
  | cons q t ih =>
    by_cases hq : q.id = sid
    · have hqr : q.id = r.id := by rw [hid, hq]
      simp [findById, saveRecord, List.find?, hqr, hid]
    · have hqr : ¬ q.id = r.id := by rw [hid]; exact hq
      have htail : (findById t sid).isSome := by
        simpa [findById, List.find?, hq] using hfind
      simpa [findById, saveRecord, List.find?, hq, hqr] using ih htail

/-! ## Concrete sample states used by witnesses and counterexamples -/

/-- An empty per-server config. -/
def cfgEmpty : Config := ⟨none, [], [], none⟩

/-- A persisted record whose process is live. -/
def recA : ServerRecord :=
  ⟨"s1", "alpha", "u1", "brave-search", "running", "/mcp/u1/abc", [], cfgEmpty, 3, 10⟩

/-- State with `recA` persisted and a live registry entry (handle 7). -/
def stLive : St := ⟨[recA], [("s1", 7)], 8⟩

/-- A persisted record with no live process. -/
def recB : ServerRecord :=
  ⟨"s2", "beta", "u1", "github", "stopped", "/mcp/u1/def", [], cfgEmpty, 0, 0⟩

/-- State with `recB` persisted and an empty registry. -/
def stIdle : St := ⟨[recB], [], 0⟩

/-- A `custom` record whose config declares no `command`. -/
def recCustom : ServerRecord :=
  ⟨"c1", "mine", "u1", "custom", "creating", "/mcp/u1/ccc", [], cfgEmpty, 0, 0⟩

/-- State with `recCustom` persisted and an empty registry. -/
def stCustom : St := ⟨[recCustom], [], 0⟩

/-! ## Claim theorems -/

/-- C1 (counterexample): the claim says `stop` removes the Registry entry
before signalling termination.  On a live server the translated `stopServer`
emits `kill` at position 0 and the registry removal at position 1, so the
remove-before-kill ordering is false at this concrete input. -/
theorem stop_remove_before_kill_counterexample :
    removeBeforeKill (stopServer stLive "s1").2 = false := by
  decide

/-- C1 (amended): for a persisted server with a live Registry entry, `stop`
first signals termination to the stored handle, then removes the Registry
entry, then persists `stopped`, then answers success — the kill comes before
the removal, not after. -/
theorem stop_kill_then_remove_then_persist (st : St) (sid : String)
    (server : ServerRecord) (h : Nat)
    (hfind : findById st.store sid = some server)
    (hget : regGet st.running sid = some h) :
    stopServer st sid =
      (⟨saveRecord st.store { server with status := "stopped" },
        regDelete st.running sid, st.nextHandle⟩,
       [.kill h, .removeEntry sid, .persist sid "stopped",
        .send { success := true, message := some "Server stopped successfully" }]) := by
  unfold stopServer
  rw [hfind, hget]

/-- C1 witness: the amended ordering at the concrete live state. -/
theorem stop_kill_then_remove_then_persist_witness :
    stopServer stLive "s1" =
      (⟨saveRecord stLive.store { recA with status := "stopped" },
        regDelete stLive.running "s1", stLive.nextHandle⟩,
       [.kill 7, .removeEntry "s1", .persist "s1" "stopped",
        .send { success := true, message := some "Server stopped successfully" }]) :=
  stop_kill_then_remove_then_persist stLive "s1" recA 7 (by rfl) (by rfl)

/-- C2: the termination observer, for a record still present in the store,
persists `stopped` on exit code 0 and `failed` on any other exit code and
removes the Registry entry; on an OS-level `error` event it persists
`failed` and removes the Registry entry. -/
theorem termination_observer_reconciles (st : St) (sid : String) (c : Int)
    (server : ServerRecord)
    (hfind : findById st.store sid = some server) :
    procOnExit st sid c =
      (⟨saveRecord st.store { server with status := if c = 0 then "stopped" else "failed" },
        regDelete st.running sid, st.nextHandle⟩,
       [.persist sid (if c = 0 then "stopped" else "failed"), .removeEntry sid]) ∧
    procOnError st sid =
      (⟨saveRecord st.store { server with status := "failed" },
        regDelete st.running sid, st.nextHandle⟩,
       [.persist sid "failed", .removeEntry sid]) := by
  constructor
  · unfold procOnExit
    rw [hfind]
  · unfold procOnError
    rw [hfind]

/-- C2 witness: the observer at the concrete live state, for a clean exit. -/
theorem termination_observer_reconciles_witness :
    procOnExit stLive "s1" 0 =
      (⟨saveRecord stLive.store { recA with status := if (0 : Int) = 0 then "stopped" else "failed" },
        regDelete stLive.running "s1", stLive.nextHandle⟩,
       [.persist "s1" (if (0 : Int) = 0 then "stopped" else "failed"), .removeEntry "s1"]) ∧
    procOnError stLive "s1" =
      (⟨saveRecord stLive.store { recA with status := "failed" },
        regDelete stLive.running "s1", stLive.nextHandle⟩,
       [.persist "s1" "failed", .removeEntry "s1"]) :=
  termination_observer_reconciles stLive "s1" 0 recA (by rfl)

/-- C3: `start` on a server that is persisted and already has a Registry
entry answers success, spawns nothing, and leaves both the Registry and the
persisted record untouched. -/
theorem start_idempotent_when_running (st : St) (sid : String)
    (server : ServerRecord)
    (hfind : findById st.store sid = some server)
    (hrun : regHas st.running sid = true) :
    startServer st sid =
      (st, [.send { success := true, message := some "Server is already running" }]) := by
  unfold startServer
  rw [hfind]
  simp [hrun]

/-- C3 witness: starting the already-live concrete server is a no-op. -/
theorem start_idempotent_when_running_witness :
    startServer stLive "s1" =
      (stLive, [.send { success := true, message := some "Server is already running" }]) :=
  start_idempotent_when_running stLive "s1" recA (by rfl) (by rfl)

/-- C4: `stop` on a server that is persisted but has no Registry entry
answers success with no kill signal and no mutation of the Registry or the
record, and immediately stopping again behaves identically. -/
theorem stop_absent_noop_idempotent (st : St) (sid : String)
    (server : ServerRecord)
    (hfind : findById st.store sid = some server)
    (hnone : regGet st.running sid = none) :
    stopServer st sid =
      (st, [.send { success := true, message := some "Server is not running" }]) ∧
    stopServer (stopServer st sid).1 sid =
      ((stopServer st sid).1,
       [.send { success := true, message := some "Server is not running" }]) := by
  have h1 : stopServer st sid =
      (st, [.send { success := true, message := some "Server is not running" }]) := by
    unfold stopServer
    rw [hfind, hnone]
  refine ⟨h1, ?_⟩
  rw [h1]
  exact h1

/-- C4 witness: stopping the concrete idle server twice. -/
theorem stop_absent_noop_idempotent_witness :
    stopServer stIdle "s2" =
      (stIdle, [.send { success := true, message := some "Server is not running" }]) ∧
    stopServer (stopServer stIdle "s2").1 "s2" =
      ((stopServer stIdle "s2").1,
       [.send { success := true, message := some "Server is not running" }]) :=
  stop_absent_noop_idempotent stIdle "s2" recB (by rfl) (by rfl)

/-- C5 (counterexample): the claim says a failed launch persists status
`failed`.  Starting the concrete `custom` server whose config has no
`command` makes `spawn` throw; the handler answers failure but the state is
completely unchanged — the persisted status stays `creating`, not
`failed`. -/
theorem start_launch_failure_counterexample :
    (startServer stCustom "c1").1 = stCustom ∧
    (findById (startServer stCustom "c1").1.store "c1").map (fun r => r.status) =
      some "creating" ∧
    ("creating" : String) ≠ "failed" := by
  refine ⟨by decide, by decide, by decide⟩

/-- C5 (amended): when the launch dispatch throws (missing/invalid command
configuration), `start` answers `Failed to start server` with the error
detail and leaves both the Registry and the persisted record untouched; in
particular no `failed` status is persisted. -/
theorem start_launch_failure_no_persist (st : St) (sid : String)
    (server : ServerRecord) (e : String)
    (hfind : findById st.store sid = some server)
    (hnorun : regHas st.running sid = false)
    (hlaunch : launchSpec server = some (Except.error e)) :
    startServer st sid =
      (st, [.send { success := false, message := some "Failed to start server",
                    error := some e }]) := by
  unfold startServer
  rw [hfind]
  simp [hnorun, hlaunch]

/-- C5 witness: the amended behaviour at the concrete command-less custom
server. -/
theorem start_launch_failure_no_persist_witness :
    startServer stCustom "c1" =
      (stCustom,
       [.send { success := false, message := some "Failed to start server",
                error := some "spawn: the file argument must be of type string" }]) :=
  start_launch_failure_no_persist stCustom "c1" recCustom
    "spawn: the file argument must be of type string" (by rfl) (by rfl) (by rfl)

theorem getDecryptedApiKey_empty (server : ServerRecord) (key : String) :
    getDecryptedApiKey server key = "" := by
  unfold getDecryptedApiKey
  split
  · rfl
  · rfl

/-- A record holding one correctly-encrypted credential, as the backend
model would have stored it. -/
def recKeyed : ServerRecord :=
  ⟨"k1", "keyed", "u1", "brave-search", "stopped", "/mcp/u1/kkk",
   [("BRAVE_API_KEY", cryptoJsAesEncrypt envEncryptionKey "secret-token")],
   cfgEmpty, 0, 0⟩

/-- C6 (code bug): the manager's `getDecryptedApiKey` calls
`crypto.AES.decrypt` on Node's built-in `crypto` module, which has no `AES`
member, so the call throws and the catch returns `''` — for every stored
credential, decryption of `encrypt(v, k)` with the same `k` yields `''`,
never `v`: the claimed round-trip fails on this concrete encrypted
credential. -/
theorem manager_decrypt_roundtrip_fails :
    getDecryptedApiKey recKeyed "BRAVE_API_KEY" = "" ∧
    ("secret-token" : String) ≠ "" ∧
    getDecryptedApiKey recKeyed "BRAVE_API_KEY" ≠ "secret-token" := by
  refine ⟨getDecryptedApiKey_empty recKeyed "BRAVE_API_KEY", by decide, ?_⟩
  rw [getDecryptedApiKey_empty]
  decide

/-- A record with no credentials yet. -/
def recNoKeys : ServerRecord :=
  ⟨"p1", "proj", "u1", "custom", "stopped", "/mcp/u1/ppp", [], cfgEmpty, 0, 0⟩

/-- The store after `PUT /api/servers/p1/apikey` sets `KEY_A = va`. -/
def storeP1 : Store := (putApiKey [recNoKeys] "u1" false "p1" "KEY_A" "va").1

/-- The store after a second `PUT` then sets `KEY_B = vb`. -/
def storeP2 : Store := (putApiKey storeP1 "u1" false "p1" "KEY_B" "vb").1

/-- C7 (code bug): the pre-save hook encrypts every entry of a modified
`apiKeys` object, and the `PUT /:id/apikey` route spreads the stored
(already encrypted) values back into the object; after adding a second key,
the first key's value has been encrypted twice, so decrypting it returns its
intermediate ciphertext, not the original plaintext. -/
theorem apikey_double_encryption :
    (findById storeP2 "p1").map (fun r => r.apiKeys) =
      some [("KEY_A", cryptoJsAesEncrypt envEncryptionKey
                        (cryptoJsAesEncrypt envEncryptionKey "va")),
            ("KEY_B", cryptoJsAesEncrypt envEncryptionKey "vb")] ∧
    cryptoJsAesEncrypt envEncryptionKey (cryptoJsAesEncrypt envEncryptionKey "va") ≠
      cryptoJsAesEncrypt envEncryptionKey "va" ∧
    cryptoJsAesDecrypt envEncryptionKey
        (cryptoJsAesEncrypt envEncryptionKey (cryptoJsAesEncrypt envEncryptionKey "va")) =
      some (cryptoJsAesEncrypt envEncryptionKey "va") ∧
    cryptoJsAesEncrypt envEncryptionKey "va" ≠ "va" := by
  refine ⟨by decide, by decide, by decide, by decide⟩

theorem closeConn_notin_startServer (st : St) (sid : String) :
    Action.closeConn ∉ (startServer st sid).2 := by
  unfold startServer
  split
  · simp
  · split
    · simp
    · split <;> simp

theorem closeConn_notin_stopServer (st : St) (sid : String) :
    Action.closeConn ∉ (stopServer st sid).2 := by
  unfold stopServer
  split
  · simp
  · split <;> simp

theorem closeConn_notin_getServerStatus (st : St) (sid : String) :
    Action.closeConn ∉ (getServerStatus st sid).2 := by
  unfold getServerStatus
  split <;> simp

/-- C8: an unknown command answers `Unknown command`; an undecodable frame
answers `Error processing command` with the error detail; no message of any
kind closes the connection; and a valid `status` command following a
malformed frame on the same session still succeeds. -/
theorem command_channel_bad_messages (st : St) (c sid e : String) (m : WsEvent)
    (server : ServerRecord) (sid2 : String)
    (hc1 : c ≠ "start") (hc2 : c ≠ "stop") (hc3 : c ≠ "status")
    (hfind : findById st.store sid2 = some server) :
    handleMessage st (.jsonMsg c sid) =
      (st, [.send { success := false, message := some "Unknown command" }]) ∧
    handleMessage st (.malformed e) =
      (st, [.send { success := false, message := some "Error processing command",
                    error := some e }]) ∧
    Action.closeConn ∉ (handleMessage st m).2 ∧
    (runSession st [.malformed e, .jsonMsg "status" sid2]).2 =
      [[.send { success := false, message := some "Error processing command",
                error := some e }],
       [.send { success := true,
                status := some (if regHas st.running sid2 then "running" else "stopped"),
                serverInfo := some (server.id, server.name, server.sType,
                                    server.requestCount, server.lastActivity) }]] := by
  refine ⟨?_, rfl, ?_, ?_⟩
  · unfold handleMessage
    simp [hc1, hc2, hc3]
  · cases m with
    | malformed e' => simp [handleMessage]
    | jsonMsg cmd sid' =>
      show Action.closeConn ∉ (handleMessage st (.jsonMsg cmd sid')).2
      simp only [handleMessage]
      split
      · exact closeConn_notin_startServer st sid'
      · exact closeConn_notin_stopServer st sid'
      · exact closeConn_notin_getServerStatus st sid'
      · simp
  · simp only [runSession, handleMessage]
    unfold getServerStatus
    rw [hfind]

/-- C8 witness: the bad-message behaviour at the concrete live state. -/
theorem command_channel_bad_messages_witness :
    handleMessage stLive (.jsonMsg "destroy" "s1") =
      (stLive, [.send { success := false, message := some "Unknown command" }]) ∧
    handleMessage stLive (.malformed "Unexpected token") =
      (stLive, [.send { success := false, message := some "Error processing command",
                        error := some "Unexpected token" }]) ∧
    Action.closeConn ∉ (handleMessage stLive (.malformed "Unexpected token")).2 ∧
    (runSession stLive [.malformed "Unexpected token", .jsonMsg "status" "s1"]).2 =
      [[.send { success := false, message := some "Error processing command",
                error := some "Unexpected token" }],
       [.send { success := true,
                status := some (if regHas stLive.running "s1" then "running" else "stopped"),
                serverInfo := some (recA.id, recA.name, recA.sType,
                                    recA.requestCount, recA.lastActivity) }]] :=
  command_channel_bad_messages stLive "destroy" "s1" "Unexpected token"
    (.malformed "Unexpected token") recA "s1"
    (by decide) (by decide) (by decide) (by rfl)

/-- C9: the router answers 404 when no record resolves for the owner and
endpoint fragment; 503 when the persisted status is not `running` or when no
live registry entry exists for the record; and forwards only when both
liveness conditions hold, incrementing `requestCount` and updating
`lastActivity` on the record. -/
theorem mcp_router_cases (st : St) (uid sid : String) (now : Nat) :
    (resolveByEndpoint st.store uid sid = none →
      mcpPost st uid sid now = (st, ⟨404, "Server not found"⟩)) ∧
    (∀ server, resolveByEndpoint st.store uid sid = some server →
      server.status ≠ "running" →
      mcpPost st uid sid now = (st, ⟨503, "Server is not running"⟩)) ∧
    (∀ server, resolveByEndpoint st.store uid sid = some server →
      server.status = "running" → regGet st.running server.id = none →
      mcpPost st uid sid now = (st, ⟨503, "Server process not found"⟩)) ∧
    (∀ server h, resolveByEndpoint st.store uid sid = some server →
      server.status = "running" → regGet st.running server.id = some h →
      mcpPost st uid sid now =
        ({ st with store := (saveRecord st.store
            { server with requestCount := server.requestCount + 1,
                          lastActivity := now }) },
         ⟨200, "Request processed successfully"⟩)) := by
  refine ⟨?_, ?_, ?_, ?_⟩
  · intro hnone
    unfold mcpPost
    rw [hnone]
  · intro server hsome hst
    unfold mcpPost
    rw [hsome]
    simp [hst]
  · intro server hsome hst hreg
    unfold mcpPost
    rw [hsome]
    simp [hst, hreg]
  · intro server h hsome hst hreg
    unfold mcpPost
    rw [hsome]
    simp [hst, hreg]

/-- C9 witness: a successful forward at the concrete live state. -/
theorem mcp_router_cases_witness :
    mcpPost stLive "u1" "abc" 42 =
      ({ stLive with store := (saveRecord stLive.store
          { recA with requestCount := recA.requestCount + 1, lastActivity := 42 }) },
       ⟨200, "Request processed successfully"⟩) :=
  (mcp_router_cases stLive "u1" "abc" 42).2.2.2 recA 7 (by decide) (by rfl) (by rfl)

/-- C10: processing a `status` command is read-only — the store and the
registry are identical before and after, and the only action in its trace is
sending the response. -/
theorem status_command_readonly (st : St) (sid : String) :
    (getServerStatus st sid).1 = st ∧
    ((getServerStatus st sid).2.all isSendAct) = true := by
  unfold getServerStatus
  constructor
  · split <;> rfl
  · split <;> rfl

end MCP
